import Mathlib

/-!
Verification of the macro-extraction and aggregation logic of the
daisyllama/callie repository (source files `callie.py`,
`macro_tracker_app.py`, `openai_api.py`).

Strings are embedded as `List Char`; Python numbers (floats fed to the
persistence layer) are embedded as rationals `ℚ`; fallible operations
return `Option` and a possible `ZeroDivisionError` is an `Except` error.

The regular expressions used by `parse_openai_response` (callie.py,
lines 227-249) all have one of two fixed shapes,

  * `LABEL:\s*(\d+)SUFFIX`  with `re.IGNORECASE`, and
  * `Meal:\s*(.*?)(?:,|$)`  with `re.IGNORECASE`,

so instead of a general regex engine we embed `re.search` for exactly
these two shapes, with Python's leftmost-match semantics:
the text is scanned position by position, and at the first position where
the whole pattern matches, the captured group is returned.  For the
numeric shape no backtracking can occur, because the character classes
`\s`, `\d` and the first character of the suffix (`g` or `m`, also in
their uppercase forms) are pairwise disjoint, so the greedy `\s*` and
`\d+` runs are forced.  For the meal-name shape, `\s*` is greedy but may
backtrack (modelled by `wsBacktrack`), `.*?` is lazy and `.` does not
match a newline, and `$` matches at the end of the text or just before a
terminal newline (modelled by `lazyScan`).
-/

/-- Python `\s` on the ASCII range: space, tab, newline, vertical tab,
form feed, carriage return (codes 32 and 9-13). -/
def isPySpace (c : Char) : Bool := c.toNat = 32 || (9 ≤ c.toNat && c.toNat ≤ 13)

/-- Python `\d` on the ASCII range: the characters `0`-`9` (codes 48-57). -/
def isPyDigit (c : Char) : Bool := 48 ≤ c.toNat && c.toNat ≤ 57

/-- Code point of the lower-cased character, used to compare characters
under `re.IGNORECASE` (ASCII case folding). -/
def lowerCode (c : Char) : Nat :=
  if 65 ≤ c.toNat && c.toNat ≤ 90 then c.toNat + 32 else c.toNat

/-- Numeric value of a digit character. -/
def digitVal (c : Char) : Nat := c.toNat - 48

/-- Value of a machine-read decimal digit string, as produced by Python's
`int()` applied to a `\d+` capture. -/
def digitsToNat (ds : List Char) : Nat := ds.foldl (fun a c => 10 * a + digitVal c) 0

/-- Python `str.strip()`: remove leading and trailing whitespace. -/
def pyStrip (s : List Char) : List Char :=
  ((s.dropWhile isPySpace).reverse.dropWhile isPySpace).reverse

/-- Case-insensitive literal match: if `s` starts with `l` up to ASCII
case, return the rest of `s`. The pattern `l` is stored lower-case. -/
def stripLabelCI : List Char → List Char → Option (List Char)
  | [], s => some s
  | _ :: _, [] => none
  | l :: ls, c :: cs => if lowerCode c = lowerCode l then stripLabelCI ls cs else none

/-- Case-insensitive prefix test (used for the unit suffix of the
numeric patterns, where `re.IGNORECASE` also applies). -/
def isPrefixCI : List Char → List Char → Bool
  | [], _ => true
  | _ :: _, [] => false
  | l :: ls, c :: cs => lowerCode c = lowerCode l && isPrefixCI ls cs

/-- Whether the literal `l` occurs (case-insensitively) anywhere in `s`:
the label pattern is present in the text. -/
def hasLabelCI (l : List Char) : List Char → Bool
  | [] => (stripLabelCI l []).isSome
  | c :: t => (stripLabelCI l (c :: t)).isSome || hasLabelCI l t

/-- Attempt the tail `\s*(\d+)SUFFIX` of a numeric pattern at a fixed
position `t` (just after the label matched).  The greedy `\s*` and `\d+`
runs are forced because whitespace, digits and the suffix head are
disjoint character classes, so no backtracking is modelled. -/
def tryNumAt (suf t : List Char) : Option Nat :=
  let r := t.dropWhile isPySpace
  let ds := r.takeWhile isPyDigit
  let rest := r.dropWhile isPyDigit
  if ds.isEmpty then none
  else if isPrefixCI suf rest then some (digitsToNat ds) else none

/-- Embeds `re.search(r"LABEL:\s*(\d+)SUFFIX", s, re.IGNORECASE)` followed
by `int()` on the capture: scan left to right, and at the first position
where the label matches and `tryNumAt` succeeds, return the number. -/
def searchNum (l suf : List Char) : List Char → Option Nat
  | [] => none
  | c :: t =>
    match stripLabelCI l (c :: t) with
    | some rest =>
      match tryNumAt suf rest with
      | some n => some n
      | none => searchNum l suf t
    | none => searchNum l suf t

/-- Embeds the lazy tail `(.*?)(?:,|$)` of the meal-name pattern run at a
fixed position: expand `.*?` one character at a time, trying `,` and then
`$` at each step.  `.` does not match a newline; `$` matches at the end
of the text or just before a terminal newline.  Returns the capture. -/
def lazyScan : List Char → Option (List Char)
  | [] => some []
  | c :: t =>
    if c = ',' then some []
    else if c = '\n' && t.isEmpty then some []
    else if c = '\n' then none
    else (lazyScan t).map (fun g => c :: g)

/-- Backtracking of the greedy `\s*` of the meal-name pattern: the first
argument is the reversed whitespace run; shorten the run one character at
a time until the lazy tail matches. -/
def wsBacktrack : List Char → List Char → Option (List Char)
  | [], r => lazyScan r
  | w :: ws, r =>
    match lazyScan r with
    | some g => some g
    | none => wsBacktrack ws (w :: r)

/-- Attempt the tail `\s*(.*?)(?:,|$)` of the meal-name pattern at a
fixed position `t` (just after `Meal:` matched). -/
def tryMealAt (t : List Char) : Option (List Char) :=
  wsBacktrack (t.takeWhile isPySpace).reverse (t.dropWhile isPySpace)

/-- Label literals of the six patterns of `parse_openai_response`
(callie.py, lines 227-247), stored lower-case. -/
def mealLabel : List Char := "meal:".data

def caloriesLabel : List Char := "calories:".data

def proteinLabel : List Char := "protein:".data

def fatLabel : List Char := "fat:".data

def cholesterolLabel : List Char := "cholesterol:".data

def carbsLabel : List Char := "carbs:".data

/-- Unit suffix `g` of the protein, fat and carbs patterns. -/
def gSuffix : List Char := "g".data

/-- Unit suffix `mg` of the cholesterol pattern. -/
def mgSuffix : List Char := "mg".data

/-- Embeds `re.search(r"Meal:\s*(.*?)(?:,|$)", s, re.IGNORECASE)`: scan
left to right, at the first position where `Meal:` matches and the tail
succeeds, return the capture. -/
def searchMeal : List Char → Option (List Char)
  | [] => none
  | c :: t =>
    match stripLabelCI mealLabel (c :: t) with
    | some rest =>
      match tryMealAt rest with
      | some g => some g
      | none => searchMeal t
    | none => searchMeal t

/-- Result of `parse_openai_response` (callie.py, lines 215-252): the
name (empty when the `Meal:` pattern is absent) and the five numeric
fields, `none` when the corresponding pattern is absent. -/
structure ParsedResponse where
  meal_name : List Char
  calories : Option Nat
  protein : Option Nat
  fat : Option Nat
  cholesterol : Option Nat
  carbs : Option Nat
deriving DecidableEq, Repr

/-- Embeds `parse_openai_response` (callie.py, lines 215-252): six
independent regex searches over the response text.  The function is
total: no input raises. -/
def parse_openai_response (s : List Char) : ParsedResponse where
  meal_name := match searchMeal s with | some g => pyStrip g | none => []
  calories := searchNum caloriesLabel [] s
  protein := searchNum proteinLabel gSuffix s
  fat := searchNum fatLabel gSuffix s
  cholesterol := searchNum cholesterolLabel mgSuffix s
  carbs := searchNum carbsLabel gSuffix s

/-!
Embedding of Python `float()` on the decimal grammar, and of the numeric
validators of the two application variants.  Every call site in the
repository strips its argument before converting (`str(value).strip()` in
callie.py line 368, `value.strip()` in macro_tracker_app.py line 399 and
callie.py line 536), so `float()` is modelled on already-stripped input.
The special forms `inf`, `nan` and underscore separators, which no macro
input is expected to use, are not modelled; on the decimal grammar
(optional sign, integer part and/or fractional part, optional exponent)
the model is exact, with the value represented as a rational.
-/

/-- Power of ten as a rational, by natural-number exponentiation. -/
def pow10 (n : Nat) : ℚ := ((10 ^ n : Nat) : ℚ)

/-- Power of ten with an integer exponent, for the `float()` exponent
part. -/
def zpow10 : Int → ℚ
  | Int.ofNat n => pow10 n
  | Int.negSucc n => 1 / pow10 (n + 1)

/-- Exponent part of the `float()` grammar, after the letter `e`/`E`:
an optional sign and at least one digit, consuming the whole rest. -/
def parseExpPart : List Char → Option Int
  | '+' :: d => if !d.isEmpty && d.all isPyDigit then some (digitsToNat d) else none
  | '-' :: d => if !d.isEmpty && d.all isPyDigit then some (-(digitsToNat d : Int)) else none
  | d => if !d.isEmpty && d.all isPyDigit then some (digitsToNat d) else none

/-- Unsigned part of the `float()` grammar: digits, an optional point
with further digits (at least one digit on one of the two sides), and an
optional exponent. -/
def parseUnsigned (s : List Char) : Option ℚ :=
  let ip := s.takeWhile isPyDigit
  let r1 := s.dropWhile isPyDigit
  match r1 with
  | [] => if ip.isEmpty then none else some (digitsToNat ip)
  | '.' :: r2 =>
    let fp := r2.takeWhile isPyDigit
    let r3 := r2.dropWhile isPyDigit
    if ip.isEmpty && fp.isEmpty then none
    else
      let m : ℚ := (digitsToNat ip : ℚ) + (digitsToNat fp : ℚ) / pow10 fp.length
      match r3 with
      | [] => some m
      | c :: r4 => if c = 'e' ∨ c = 'E' then (parseExpPart r4).map (fun e => m * zpow10 e) else none
  | c :: r2 =>
    if (c = 'e' ∨ c = 'E') ∧ !ip.isEmpty then
      (parseExpPart r2).map (fun e => (digitsToNat ip : ℚ) * zpow10 e)
    else none

/-- Embeds Python `float()` applied to an already-stripped string:
an optional sign followed by the unsigned decimal grammar; `none` is a
raised `ValueError`. -/
def pyFloat : List Char → Option ℚ
  | '-' :: r => (parseUnsigned r).map Neg.neg
  | '+' :: r => parseUnsigned r
  | s => parseUnsigned s

namespace Callie

/-- Embeds `parse_number` of callie.py (lines 366-377): strip the input,
default a blank field to 0, convert with `float()` and reject negative
values; `none` means the error-message branch was taken and submission
is blocked. -/
def parse_number (s : List Char) : Option ℚ :=
  let v := pyStrip s
  if v.isEmpty then some 0
  else
    match pyFloat v with
    | none => none
    | some q => if q < 0 then none else some q

/-- Embeds the `None`-to-0 coercion of `save_meal_to_airtable`
(callie.py, lines 90-94) applied to each numeric field before the
record is created. -/
def save_meal_coerce (x : Option ℚ) : ℚ := x.getD 0

/-- Embeds the create path of the callie.py meal form (lines 379-397):
the five numeric values handed to `save_meal_to_airtable`, or `none`
when validation failed and nothing is saved. -/
def create_path_values (cal prot fa chol carb : List Char) : Option (ℚ × ℚ × ℚ × ℚ × ℚ) :=
  match parse_number cal, parse_number prot, parse_number fa, parse_number chol, parse_number carb with
  | some a, some b, some c, some d, some e =>
    some (save_meal_coerce (some a), save_meal_coerce (some b), save_meal_coerce (some c),
      save_meal_coerce (some d), save_meal_coerce (some e))
  | _, _, _, _, _ => none

/-- Embeds `parse_and_log_numeric_update` of callie.py (lines 534-542):
`float(value.strip())`, with `none` for the `ValueError` branch.  There
is no sign check on this path. -/
def parse_and_log_numeric_update (s : List Char) : Option ℚ :=
  pyFloat (pyStrip s)

/-- Embeds one numeric field of the update path of callie.py (lines
544-558): a non-blank input is parsed and, when parsing succeeds, the
value is put into `update_fields` and handed to the persistence call. -/
def update_field_value (s : List Char) : Option ℚ :=
  if (pyStrip s).isEmpty then none else parse_and_log_numeric_update s

end Callie

namespace TrackerApp

/-- Embeds `parse_number` of macro_tracker_app.py (lines 397-408): strip
the input, reject a blank field, convert with `float()` and reject
negative values; `none` means rejection. -/
def parse_number (s : List Char) : Option ℚ :=
  let v := pyStrip s
  if v.isEmpty then none
  else
    match pyFloat v with
    | none => none
    | some q => if q < 0 then none else some q

end TrackerApp

/-!
Aggregation and progress display.  `get_meals_from_airtable` (callie.py,
lines 119-149; identical field handling in macro_tracker_app.py, lines
199-235) builds one row per record, reading each numeric field with
`fields.get(key, 0)`, so an absent field becomes 0; the dashboard then
sums each column (callie.py, lines 421-425; macro_tracker_app.py, lines
458-462).  `display_progress` and `plot_gauge` appear with identical
bodies in both files.  A possible `ZeroDivisionError` is modelled with
`Except`: a division only happens through `pyDiv`.
-/

/-- Numeric fields of one Airtable meal record; `none` is an absent
field. -/
structure MealFields where
  calories_kcal : Option ℚ
  protein_g : Option ℚ
  fat_g : Option ℚ
  cholesterol_mg : Option ℚ
  carbs_g : Option ℚ
deriving DecidableEq, Repr

/-- Row building of `get_meals_from_airtable`: each numeric field read
with `fields.get(key, 0)` (callie.py, lines 132-136). -/
def toRow (f : MealFields) : ℚ × ℚ × ℚ × ℚ × ℚ :=
  (f.calories_kcal.getD 0, f.protein_g.getD 0, f.fat_g.getD 0,
    f.cholesterol_mg.getD 0, f.carbs_g.getD 0)

/-- Embeds the five column sums of the dashboard (callie.py, lines
421-425): totals of calories, protein, fat, cholesterol and
carbohydrates over the fetched records. -/
def dailyTotals (rs : List MealFields) : ℚ × ℚ × ℚ × ℚ × ℚ :=
  ((rs.map (fun r => (toRow r).1)).sum,
   (rs.map (fun r => (toRow r).2.1)).sum,
   (rs.map (fun r => (toRow r).2.2.1)).sum,
   (rs.map (fun r => (toRow r).2.2.2.1)).sum,
   (rs.map (fun r => (toRow r).2.2.2.2)).sum)

/-- Python division, which raises `ZeroDivisionError` on a zero
denominator. -/
def pyDiv (a b : ℚ) : Except String ℚ :=
  if b = 0 then Except.error "ZeroDivisionError" else Except.ok (a / b)

/-- Embeds `display_progress` (callie.py, lines 158-166;
macro_tracker_app.py, lines 282-290): when `goal > 0` the delta shown is
the percentage `current / goal * 100`; otherwise the delta is the string
`Goal not set`, encoded as `none` — no division happens on that
branch. -/
def display_progress (current goal : ℚ) : Except String (Option ℚ) :=
  if 0 < goal then (pyDiv current goal).map (fun d => some (d * 100))
  else Except.ok none

/-- Embeds the `percent` computation of `plot_gauge` (callie.py, line
169; macro_tracker_app.py, line 293): `min(value / goal * 100 if goal
else 0, 100)` — the conditional expression tests the truthiness of
`goal`, so a zero goal short-circuits to 0 without dividing. -/
def plot_gauge_percent (value goal : ℚ) : Except String ℚ := do
  let base ← if goal ≠ 0 then (pyDiv value goal).map (fun d => d * 100) else pure 0
  pure (min base 100)

/-- Embeds `remaining = goal - intake` of the dashboard loop (callie.py,
line 449; macro_tracker_app.py, line 481). -/
def dashboard_remaining (goal intake : ℚ) : ℚ := goal - intake

/-- Embeds `exceeded = intake > goal` of the dashboard loop (callie.py,
line 450): when true, the over-amount shown is `abs remaining`. -/
def dashboard_exceeded (intake goal : ℚ) : Bool := goal < intake

/-- Rounding of the one-decimal percentage display (the f-string format
`{percentage:.1f}`): round to the nearest tenth.  On a value that is not
a tie this is the displayed number whatever the tie convention, so
half-up is used. -/
def fmt_one_dp (q : ℚ) : ℚ := ((⌊q * 10 + 1 / 2⌋ : ℤ) : ℚ) / 10

/-- Equality of `Except` results is decidable; used to evaluate the
progress functions on concrete inputs. -/
instance exceptDecEq {ε α : Type} [DecidableEq ε] [DecidableEq α] :
    DecidableEq (Except ε α) := fun a b =>
  match a, b with
  | Except.ok x, Except.ok y =>
    if h : x = y then isTrue (by rw [h]) else isFalse (by intro hc; cases hc; exact h rfl)
  | Except.error x, Except.error y =>
    if h : x = y then isTrue (by rw [h]) else isFalse (by intro hc; cases hc; exact h rfl)
  | Except.ok _, Except.error _ => isFalse (by intro hc; cases hc)
  | Except.error _, Except.ok _ => isFalse (by intro hc; cases hc)

/-- Digit character of a value below ten, used to quantify over all
numeric field values in parser statements. -/
def digitChar : Nat → Char
  | 0 => '0' | 1 => '1' | 2 => '2' | 3 => '3' | 4 => '4'
  | 5 => '5' | 6 => '6' | 7 => '7' | 8 => '8' | _ => '9'

/-- Base-10 representation with fuel, most significant digit first. -/
def decimalReprAux : Nat → Nat → List Char
  | 0, _ => []
  | fuel + 1, n =>
    if n < 10 then [digitChar n]
    else decimalReprAux fuel (n / 10) ++ [digitChar (n % 10)]

/-- Standard base-10 representation of a natural number, most
significant digit first. -/
def decimalRepr (n : Nat) : List Char := decimalReprAux (n + 1) n

/-!
Helper lemmas: list scanning, the case-insensitive matcher, and the
decimal representation.
-/

theorem takeWhile_append_all {α : Type} {p : α → Bool} {d : List α} (t : List α)
    (h : ∀ c ∈ d, p c = true) : (d ++ t).takeWhile p = d ++ t.takeWhile p := by
  induction d with
  | nil => simp
  | cons c d ih =>
    have hc : p c = true := h c (by simp)
    simp only [List.cons_append, List.takeWhile_cons, hc, if_true]
    rw [ih fun x hx => h x (by simp [hx])]

theorem dropWhile_append_all {α : Type} {p : α → Bool} {d : List α} (t : List α)
    (h : ∀ c ∈ d, p c = true) : (d ++ t).dropWhile p = t.dropWhile p := by
  induction d with
  | nil => simp
  | cons c d ih =>
    have hc : p c = true := h c (by simp)
    simp only [List.cons_append, List.dropWhile_cons, hc, if_true]
    exact ih fun x hx => h x (by simp [hx])

theorem takeWhile_eq_self_of_all {α : Type} {p : α → Bool} {d : List α}
    (h : ∀ c ∈ d, p c = true) : d.takeWhile p = d := by
  have := takeWhile_append_all (p := p) (d := d) [] h
  simpa using this

theorem dropWhile_eq_nil_of_all {α : Type} {p : α → Bool} {d : List α}
    (h : ∀ c ∈ d, p c = true) : d.dropWhile p = [] := by
  have := dropWhile_append_all (p := p) (d := d) [] h
  simpa using this

theorem dropWhile_eq_self_of_takeWhile_nil {α : Type} {p : α → Bool} {t : List α}
    (h : t.takeWhile p = []) : t.dropWhile p = t := by
  cases t with
  | nil => rfl
  | cons c t =>
    simp only [List.takeWhile_cons] at h
    by_cases hc : p c = true
    · simp [hc] at h
    · simp only [List.dropWhile_cons]
      simp only [Bool.not_eq_true] at hc
      simp [hc]

theorem takeWhile_append_stop {α : Type} {p : α → Bool} {y : List α} (a : List α)
    (hy : y.takeWhile p = []) : (a ++ y).takeWhile p = a.takeWhile p := by
  induction a with
  | nil => simpa using hy
  | cons c a ih =>
    by_cases hc : p c = true
    · simp [List.takeWhile_cons, hc, ih]
    · simp only [Bool.not_eq_true] at hc
      simp [List.takeWhile_cons, hc]

theorem dropWhile_append_stop {α : Type} {p : α → Bool} {y : List α} (a : List α)
    (hy : y.takeWhile p = []) : (a ++ y).dropWhile p = a.dropWhile p ++ y := by
  induction a with
  | nil => simpa using dropWhile_eq_self_of_takeWhile_nil hy
  | cons c a ih =>
    by_cases hc : p c = true
    · simp [List.dropWhile_cons, hc, ih]
    · simp only [Bool.not_eq_true] at hc
      simp [List.dropWhile_cons, hc]

theorem dropWhile_idem {α : Type} {p : α → Bool} (x : List α) :
    (x.dropWhile p).dropWhile p = x.dropWhile p := by
  induction x with
  | nil => rfl
  | cons c x ih =>
    by_cases hc : p c = true
    · simp [List.dropWhile_cons, hc, ih]
    · simp only [Bool.not_eq_true] at hc
      simp [List.dropWhile_cons, hc]

theorem stripLabelCI_append {l p : List Char} (h : stripLabelCI l p = some []) (t : List Char) :
    stripLabelCI l (p ++ t) = some t := by
  induction l generalizing p with
  | nil =>
    simp only [stripLabelCI, Option.some_inj] at h
    subst h
    rfl
  | cons l0 ls ih =>
    cases p with
    | nil => simp [stripLabelCI] at h
    | cons c p =>
      simp only [stripLabelCI] at h ⊢
      by_cases hc : lowerCode c = lowerCode l0
      · simp only [hc, if_true] at h ⊢
        exact ih h
      · simp [hc] at h

theorem isPySpace_of_isPyDigit {c : Char} (h : isPyDigit c = true) : isPySpace c = false := by
  simp only [isPyDigit, Bool.and_eq_true, decide_eq_true_eq] at h
  simp only [isPySpace, Bool.or_eq_false_iff, Bool.and_eq_false_iff]
  constructor
  · simp only [decide_eq_false_iff_not]
    omega
  · right
    simp only [decide_eq_false_iff_not]
    omega

theorem lowerCode_le_of_isPyDigit {c : Char} (h : isPyDigit c = true) : lowerCode c ≤ 57 := by
  simp only [isPyDigit, Bool.and_eq_true, decide_eq_true_eq] at h
  simp only [lowerCode]
  have hlt : (65 ≤ c.toNat && c.toNat ≤ 90) = false := by
    simp only [Bool.and_eq_false_iff, decide_eq_false_iff_not]
    left
    omega
  rw [hlt]
  simp
  omega

theorem isPrefixCI_append_self (s t : List Char) : isPrefixCI s (s ++ t) = true := by
  induction s with
  | nil => rfl
  | cons c s ih => simp [isPrefixCI, ih]

theorem searchNum_found {l suf : List Char} {c : Char} {t rest : List Char} {n : Nat}
    (h1 : stripLabelCI l (c :: t) = some rest) (h2 : tryNumAt suf rest = some n) :
    searchNum l suf (c :: t) = some n := by
  simp [searchNum, h1, h2]

theorem searchNum_step {l suf : List Char} {c : Char} {t rest : List Char}
    (h1 : stripLabelCI l (c :: t) = some rest) (h2 : tryNumAt suf rest = none) :
    searchNum l suf (c :: t) = searchNum l suf t := by
  simp [searchNum, h1, h2]

theorem searchNum_of_no_label {l suf : List Char} :
    ∀ {s : List Char}, hasLabelCI l s = false → searchNum l suf s = none := by
  intro s
  induction s with
  | nil => intro _; rfl
  | cons c t ih =>
    intro h
    simp only [hasLabelCI, Bool.or_eq_false_iff] at h
    obtain ⟨h1, h2⟩ := h
    cases hm : stripLabelCI l (c :: t) with
    | some rest => rw [hm] at h1; simp at h1
    | none => simp [searchNum, hm, ih h2]

theorem searchMeal_of_no_label :
    ∀ {s : List Char}, hasLabelCI mealLabel s = false → searchMeal s = none := by
  intro s
  induction s with
  | nil => intro _; rfl
  | cons c t ih =>
    intro h
    simp only [hasLabelCI, Bool.or_eq_false_iff] at h
    obtain ⟨h1, h2⟩ := h
    cases hm : stripLabelCI mealLabel (c :: t) with
    | some rest => rw [hm] at h1; simp at h1
    | none => simp [searchMeal, hm, ih h2]

theorem hasLabelCI_eq_false {l0 : Char} {ls : List Char} :
    ∀ {s : List Char}, (∀ c ∈ s, lowerCode c ≠ lowerCode l0) →
      hasLabelCI (l0 :: ls) s = false := by
  intro s
  induction s with
  | nil => intro _; rfl
  | cons c t ih =>
    intro h
    have hc : lowerCode c ≠ lowerCode l0 := h c (by simp)
    simp only [hasLabelCI, Bool.or_eq_false_iff]
    constructor
    · simp [stripLabelCI, hc]
    · exact ih fun x hx => h x (by simp [hx])

theorem tryNumAt_pos {suf d t : List Char} (hd : d ≠ [])
    (hdig : ∀ c ∈ d, isPyDigit c = true) (ht : t.takeWhile isPyDigit = [])
    (hsuf : isPrefixCI suf t = true) :
    tryNumAt suf (' ' :: (d ++ t)) = some (digitsToNat d) := by
  obtain ⟨c, d', rfl⟩ : ∃ c d', d = c :: d' := by
    cases d with
    | nil => exact absurd rfl hd
    | cons c d' => exact ⟨c, d', rfl⟩
  have hc : isPyDigit c = true := hdig c (by simp)
  have hr : (' ' :: (c :: d' ++ t)).dropWhile isPySpace = c :: d' ++ t := by
    have hsp : isPySpace ' ' = true := rfl
    simp only [List.dropWhile_cons, hsp, if_true]
    simp [List.dropWhile_cons, isPySpace_of_isPyDigit hc]
  have hds : (c :: d' ++ t).takeWhile isPyDigit = c :: d' := by
    rw [takeWhile_append_all t hdig, ht, List.append_nil]
  have hrest : (c :: d' ++ t).dropWhile isPyDigit = t := by
    rw [dropWhile_append_all t hdig]
    exact dropWhile_eq_self_of_takeWhile_nil ht
  simp only [tryNumAt, hr, hds, hrest, List.isEmpty_cons, hsuf, if_true]
  simp

theorem tryNumAt_nounit {suf d : List Char} (hdig : ∀ c ∈ d, isPyDigit c = true)
    (hsuf : suf ≠ []) : tryNumAt suf (' ' :: d) = none := by
  cases d with
  | nil => rfl
  | cons c d' =>
    have hc : isPyDigit c = true := hdig c (by simp)
    have hr : (' ' :: (c :: d')).dropWhile isPySpace = c :: d' := by
      have hsp : isPySpace ' ' = true := rfl
      simp only [List.dropWhile_cons, hsp, if_true]
      simp [List.dropWhile_cons, isPySpace_of_isPyDigit hc]
    have hds : (c :: d').takeWhile isPyDigit = c :: d' := takeWhile_eq_self_of_all hdig
    have hrest : (c :: d').dropWhile isPyDigit = [] := dropWhile_eq_nil_of_all hdig
    obtain ⟨u, us, rfl⟩ : ∃ u us, suf = u :: us := by
      cases suf with
      | nil => exact absurd rfl hsuf
      | cons u us => exact ⟨u, us, rfl⟩
    simp [tryNumAt, hr, hds, hrest, isPrefixCI]

theorem searchNum_label_digits {l p suf d t : List Char}
    (hp : stripLabelCI l p = some []) (hpne : p ≠ []) (hd : d ≠ [])
    (hdig : ∀ c ∈ d, isPyDigit c = true) (ht : t.takeWhile isPyDigit = [])
    (hsuf : isPrefixCI suf t = true) :
    searchNum l suf (p ++ ' ' :: (d ++ t)) = some (digitsToNat d) := by
  obtain ⟨c, p', rfl⟩ : ∃ c p', p = c :: p' := by
    cases p with
    | nil => exact absurd rfl hpne
    | cons c p' => exact ⟨c, p', rfl⟩
  rw [List.cons_append]
  exact searchNum_found
    (by rw [← List.cons_append]; exact stripLabelCI_append hp (' ' :: (d ++ t)))
    (tryNumAt_pos hd hdig ht hsuf)

theorem searchNum_label_digits_nounit {l0 : Char} {ls p suf d : List Char}
    (hp : stripLabelCI (l0 :: ls) p = some []) (hpne : p ≠ [])
    (hdig : ∀ c ∈ d, isPyDigit c = true) (hsuf : suf ≠ [])
    (hl0 : 57 < lowerCode l0) (hsp : lowerCode ' ' ≠ lowerCode l0)
    (hfree : ∀ c ∈ p.tail, lowerCode c ≠ lowerCode l0) :
    searchNum (l0 :: ls) suf (p ++ ' ' :: d) = none := by
  obtain ⟨c, p', rfl⟩ : ∃ c p', p = c :: p' := by
    cases p with
    | nil => exact absurd rfl hpne
    | cons c p' => exact ⟨c, p', rfl⟩
  rw [List.cons_append]
  rw [searchNum_step
    (by rw [← List.cons_append]; exact stripLabelCI_append hp (' ' :: d))
    (tryNumAt_nounit hdig hsuf)]
  apply searchNum_of_no_label
  apply hasLabelCI_eq_false
  intro x hx
  rcases List.mem_append.mp hx with hx1 | hx2
  · exact hfree x hx1
  · rcases List.mem_cons.mp hx2 with rfl | hx3
    · exact hsp
    · have := lowerCode_le_of_isPyDigit (hdig x hx3)
      omega

theorem digitChar_isPyDigit {k : Nat} (h : k < 10) : isPyDigit (digitChar k) = true := by
  interval_cases k <;> rfl

theorem digitVal_digitChar {k : Nat} (h : k < 10) : digitVal (digitChar k) = k := by
  interval_cases k <;> rfl

theorem decimalReprAux_digits :
    ∀ (fuel n : Nat), n < fuel → ∀ c ∈ decimalReprAux fuel n, isPyDigit c = true := by
  intro fuel
  induction fuel with
  | zero => intro n hn; omega
  | succ f ih =>
    intro n hn c hc
    rw [decimalReprAux] at hc
    by_cases h10 : n < 10
    · simp only [h10, if_true, List.mem_singleton] at hc
      subst hc
      exact digitChar_isPyDigit h10
    · simp only [h10, if_false, List.mem_append, List.mem_singleton] at hc
      rcases hc with hc1 | hc2
      · exact ih (n / 10) (by omega) c hc1
      · subst hc2
        exact digitChar_isPyDigit (Nat.mod_lt n (by omega))

theorem decimalReprAux_ne_nil :
    ∀ (fuel n : Nat), n < fuel → decimalReprAux fuel n ≠ [] := by
  intro fuel
  induction fuel with
  | zero => intro n hn; omega
  | succ f _ =>
    intro n _
    rw [decimalReprAux]
    by_cases h10 : n < 10
    · simp [h10]
    · simp [h10]

theorem digitsToNat_append_digit (a : List Char) (c : Char) :
    digitsToNat (a ++ [c]) = 10 * digitsToNat a + digitVal c := by
  simp [digitsToNat, List.foldl_append]

theorem decimalReprAux_val :
    ∀ (fuel n : Nat), n < fuel → digitsToNat (decimalReprAux fuel n) = n := by
  intro fuel
  induction fuel with
  | zero => intro n hn; omega
  | succ f ih =>
    intro n hn
    rw [decimalReprAux]
    by_cases h10 : n < 10
    · simp only [h10, if_true]
      show digitsToNat ([] ++ [digitChar n]) = n
      rw [digitsToNat_append_digit]
      simp [digitsToNat, digitVal_digitChar h10]
    · simp only [h10, if_false]
      rw [digitsToNat_append_digit]
      have hdiv : n / 10 < n := Nat.div_lt_self (by omega) (by omega)
      rw [ih (n / 10) (by omega), digitVal_digitChar (Nat.mod_lt n (by omega))]
      omega

theorem decimalRepr_digits (n : Nat) : ∀ c ∈ decimalRepr n, isPyDigit c = true :=
  decimalReprAux_digits (n + 1) n (by omega)

theorem decimalRepr_ne_nil (n : Nat) : decimalRepr n ≠ [] :=
  decimalReprAux_ne_nil (n + 1) n (by omega)

theorem decimalRepr_val (n : Nat) : digitsToNat (decimalRepr n) = n :=
  decimalReprAux_val (n + 1) n (by omega)

theorem lazyScan_to_comma {r : List Char} (b : List Char)
    (h : ∀ c ∈ r, c ≠ ',' ∧ c ≠ '\n') : lazyScan (r ++ ',' :: b) = some r := by
  induction r with
  | nil => simp [lazyScan]
  | cons c r ih =>
    have hc := h c (by simp)
    have hrest : lazyScan (r ++ ',' :: b) = some r := ih fun x hx => h x (by simp [hx])
    simp [List.cons_append, lazyScan, hc.1, hc.2, hrest]

theorem wsBacktrack_of_first {w r g : List Char} (h : lazyScan r = some g) :
    wsBacktrack w r = some g := by
  cases w with
  | nil => exact h
  | cons x xs => simp [wsBacktrack, h]

theorem tryMealAt_comma {a : List Char} (b : List Char)
    (h1 : ',' ∉ a) (h2 : '\n' ∉ a) :
    tryMealAt (a ++ ',' :: b) = some (a.dropWhile isPySpace) := by
  have hy : (',' :: b).takeWhile isPySpace = [] := by
    simp [List.takeWhile_cons]
    rfl
  rw [tryMealAt, takeWhile_append_stop a hy, dropWhile_append_stop a hy]
  apply wsBacktrack_of_first
  apply lazyScan_to_comma
  intro c hc
  have hca : c ∈ a := (List.dropWhile_sublist isPySpace).subset hc
  constructor
  · intro hcc; exact h1 (hcc ▸ hca)
  · intro hcn; exact h2 (hcn ▸ hca)

theorem searchMeal_found {c : Char} {t rest g : List Char}
    (h1 : stripLabelCI mealLabel (c :: t) = some rest) (h2 : tryMealAt rest = some g) :
    searchMeal (c :: t) = some g := by
  simp [searchMeal, h1, h2]

theorem searchMeal_label {p t g : List Char} (hp : stripLabelCI mealLabel p = some [])
    (hpne : p ≠ []) (ht : tryMealAt t = some g) : searchMeal (p ++ t) = some g := by
  obtain ⟨c, p', rfl⟩ : ∃ c p', p = c :: p' := by
    cases p with
    | nil => exact absurd rfl hpne
    | cons c p' => exact ⟨c, p', rfl⟩
  rw [List.cons_append]
  exact searchMeal_found (by rw [← List.cons_append]; exact stripLabelCI_append hp t) ht

theorem pyStrip_dropWhile (a : List Char) : pyStrip (a.dropWhile isPySpace) = pyStrip a := by
  rw [pyStrip, pyStrip, dropWhile_idem]

/-!
Claim theorems.
-/

/-- C4: `parse_openai_response` applied to the exact example string
returns the name `Grilled Chicken Salad` and the values 350, 40, 15, 80
and 20 for calories, protein, fat, cholesterol and carbs. -/
theorem claim_C4 :
    parse_openai_response ("Meal: Grilled Chicken Salad, Calories: 350kcal, Protein: 40g, Fat: 15g, Cholesterol: 80mg, Carbs: 20g".data) =
      ⟨"Grilled Chicken Salad".data, some 350, some 40, some 15, some 80, some 20⟩ := by
  decide

/-- C1 counterexample: an input containing `Protein: 40` with no unit
token yields `none` for the protein field, not 40 — the `g` suffix in
the pattern `Protein:\s*(\d+)g` is mandatory, so the claim that each of
the five fields parses with the unit optional is false. -/
theorem claim_C1_counterexample :
    (parse_openai_response ("Protein: 40".data)).protein = none ∧
    (parse_openai_response ("Protein: 40".data)).protein ≠ some 40 := by
  decide

/-- C1 amended: only the calories pattern has no unit token, so
`Calories: n` parses to `n` for every natural `n`; for protein, fat and
carbs the digits must be immediately followed by `g`, and for
cholesterol by `mg` — with the unit present each of those fields parses
to `n`, and with no unit token each of them yields `none`. -/
theorem claim_C1_amended (n : Nat) :
    (parse_openai_response ("Calories: ".data ++ decimalRepr n)).calories = some n ∧
    (parse_openai_response ("Protein: ".data ++ decimalRepr n ++ "g".data)).protein = some n ∧
    (parse_openai_response ("Fat: ".data ++ decimalRepr n ++ "g".data)).fat = some n ∧
    (parse_openai_response ("Cholesterol: ".data ++ decimalRepr n ++ "mg".data)).cholesterol = some n ∧
    (parse_openai_response ("Carbs: ".data ++ decimalRepr n ++ "g".data)).carbs = some n ∧
    (parse_openai_response ("Protein: ".data ++ decimalRepr n)).protein = none ∧
    (parse_openai_response ("Fat: ".data ++ decimalRepr n)).fat = none ∧
    (parse_openai_response ("Cholesterol: ".data ++ decimalRepr n)).cholesterol = none ∧
    (parse_openai_response ("Carbs: ".data ++ decimalRepr n)).carbs = none := by
  refine ⟨?_, ?_, ?_, ?_, ?_, ?_, ?_, ?_, ?_⟩
  · show searchNum caloriesLabel [] ("Calories: ".data ++ decimalRepr n) = some n
    have hmain := @searchNum_label_digits caloriesLabel ("Calories:".data) [] (decimalRepr n)
      [] (by decide) (by decide) (decimalRepr_ne_nil n) (decimalRepr_digits n) rfl rfl
    rw [List.append_nil, decimalRepr_val] at hmain
    exact hmain
  · show searchNum proteinLabel gSuffix ("Protein: ".data ++ decimalRepr n ++ "g".data) = some n
    have hmain := @searchNum_label_digits proteinLabel ("Protein:".data) gSuffix (decimalRepr n)
      ("g".data) (by decide) (by decide) (decimalRepr_ne_nil n) (decimalRepr_digits n)
      (by decide) (by decide)
    rw [decimalRepr_val] at hmain
    exact hmain
  · show searchNum fatLabel gSuffix ("Fat: ".data ++ decimalRepr n ++ "g".data) = some n
    have hmain := @searchNum_label_digits fatLabel ("Fat:".data) gSuffix (decimalRepr n)
      ("g".data) (by decide) (by decide) (decimalRepr_ne_nil n) (decimalRepr_digits n)
      (by decide) (by decide)
    rw [decimalRepr_val] at hmain
    exact hmain
  · show searchNum cholesterolLabel mgSuffix
      ("Cholesterol: ".data ++ decimalRepr n ++ "mg".data) = some n
    have hmain := @searchNum_label_digits cholesterolLabel ("Cholesterol:".data) mgSuffix
      (decimalRepr n) ("mg".data) (by decide) (by decide) (decimalRepr_ne_nil n)
      (decimalRepr_digits n) (by decide) (by decide)
    rw [decimalRepr_val] at hmain
    exact hmain
  · show searchNum carbsLabel gSuffix ("Carbs: ".data ++ decimalRepr n ++ "g".data) = some n
    have hmain := @searchNum_label_digits carbsLabel ("Carbs:".data) gSuffix (decimalRepr n)
      ("g".data) (by decide) (by decide) (decimalRepr_ne_nil n) (decimalRepr_digits n)
      (by decide) (by decide)
    rw [decimalRepr_val] at hmain
    exact hmain
  · show searchNum proteinLabel gSuffix ("Protein: ".data ++ decimalRepr n) = none
    exact @searchNum_label_digits_nounit 'p' ("rotein:".data) ("Protein:".data) gSuffix
      (decimalRepr n) (by decide) (by decide) (decimalRepr_digits n) (by decide)
      (by decide) (by decide) (by decide)
  · show searchNum fatLabel gSuffix ("Fat: ".data ++ decimalRepr n) = none
    exact @searchNum_label_digits_nounit 'f' ("at:".data) ("Fat:".data) gSuffix
      (decimalRepr n) (by decide) (by decide) (decimalRepr_digits n) (by decide)
      (by decide) (by decide) (by decide)
  · show searchNum cholesterolLabel mgSuffix ("Cholesterol: ".data ++ decimalRepr n) = none
    exact @searchNum_label_digits_nounit 'c' ("holesterol:".data) ("Cholesterol:".data)
      mgSuffix (decimalRepr n) (by decide) (by decide) (decimalRepr_digits n) (by decide)
      (by decide) (by decide) (by decide)
  · show searchNum carbsLabel gSuffix ("Carbs: ".data ++ decimalRepr n) = none
    exact @searchNum_label_digits_nounit 'c' ("arbs:".data) ("Carbs:".data) gSuffix
      (decimalRepr n) (by decide) (by decide) (decimalRepr_digits n) (by decide)
      (by decide) (by decide) (by decide)

/-- C3: extraction is total and missing patterns degrade to missing
values — when a label occurs nowhere in the input (case-insensitively),
the corresponding field is `none` (empty for the name); and the concrete
input with every label except Cholesterol parses all other fields
normally with cholesterol `none`. -/
theorem claim_C3 (s : List Char) :
    (hasLabelCI mealLabel s = false → (parse_openai_response s).meal_name = []) ∧
    (hasLabelCI caloriesLabel s = false → (parse_openai_response s).calories = none) ∧
    (hasLabelCI proteinLabel s = false → (parse_openai_response s).protein = none) ∧
    (hasLabelCI fatLabel s = false → (parse_openai_response s).fat = none) ∧
    (hasLabelCI cholesterolLabel s = false → (parse_openai_response s).cholesterol = none) ∧
    (hasLabelCI carbsLabel s = false → (parse_openai_response s).carbs = none) ∧
    parse_openai_response ("Meal: Grilled Chicken Salad, Calories: 350kcal, Protein: 40g, Fat: 15g, Carbs: 20g".data) =
      ⟨"Grilled Chicken Salad".data, some 350, some 40, some 15, none, some 20⟩ := by
  refine ⟨?_, ?_, ?_, ?_, ?_, ?_, by decide⟩
  · intro h
    show (match searchMeal s with | some g => pyStrip g | none => []) = []
    rw [searchMeal_of_no_label h]
  · intro h
    exact searchNum_of_no_label h
  · intro h
    exact searchNum_of_no_label h
  · intro h
    exact searchNum_of_no_label h
  · intro h
    exact searchNum_of_no_label h
  · intro h
    exact searchNum_of_no_label h

/-- C3 witness: the input of the no-cholesterol scenario contains no
`cholesterol:` label, and the claim instantiated there gives
cholesterol `none`. -/
theorem claim_C3_witness :
    (parse_openai_response ("Calories: 10".data)).cholesterol = none :=
  (claim_C3 ("Calories: 10".data)).2.2.2.2.1 (by decide)

/-- C10 counterexample: for the input `Meal: a\nb,c` the text after the
label does contain a comma, and the whitespace-stripped text before the
first comma is `a\nb`; but at the label position the lazy `.*?` cannot
cross the newline, and no later `Meal:` occurrence exists for the
search to retry, so the returned name is empty, not `a\nb`. -/
theorem claim_C10_counterexample :
    (parse_openai_response ("Meal: a\nb,c".data)).meal_name = [] ∧
    pyStrip (" a\nb".data) = 'a' :: '\n' :: 'b' :: [] ∧
    (parse_openai_response ("Meal: a\nb,c".data)).meal_name ≠ pyStrip (" a\nb".data) := by
  decide

/-- C10 amended: when the text between `Meal:` and the first comma
contains no newline (so the lazy `.*?` can reach the comma), the
returned name is exactly the whitespace-stripped text before that first
comma, whatever follows the comma.  With a newline in between this
truncation property can fail — the counterexample input returns an
empty name — so the restriction is necessary; the behaviour on
newline-containing inputs in general (leading whitespace may absorb
newlines, and the search may retry a later label occurrence) is not
part of this claim. -/
theorem claim_C10_amended (a b : List Char) (h1 : ',' ∉ a) (h2 : '\n' ∉ a) :
    (parse_openai_response ("Meal:".data ++ (a ++ ',' :: b))).meal_name = pyStrip a := by
  show (match searchMeal ("Meal:".data ++ (a ++ ',' :: b)) with
    | some g => pyStrip g | none => []) = pyStrip a
  rw [searchMeal_label (by decide) (by decide) (tryMealAt_comma b h1 h2)]
  exact pyStrip_dropWhile a

/-- C10 witness: a concrete name with surrounding whitespace is
truncated at the first comma and stripped. -/
theorem claim_C10_witness :
    (parse_openai_response ("Meal:".data ++ (" Chicken Rice ".data ++ ',' :: " Calories: 5".data))).meal_name =
      pyStrip (" Chicken Rice ".data) :=
  claim_C10_amended (" Chicken Rice ".data) (" Calories: 5".data) (by decide) (by decide)

/-- C5 counterexample: the blank input is not numeric (`float()` raises
on it), yet the callie.py variant of `parse_number` defaults it to 0
instead of rejecting it, so the claim that every non-numeric input is
rejected in both variants is false. -/
theorem claim_C5_counterexample :
    pyFloat (pyStrip []) = none ∧ Callie.parse_number [] = some 0 ∧
    Callie.parse_number [] ≠ none := by
  refine ⟨rfl, rfl, ?_⟩
  intro h
  rw [show Callie.parse_number [] = some 0 from rfl] at h
  exact Option.noConfusion h

/-- C5 amended: both validators return a non-negative numeric input
unchanged and reject negative and non-numeric non-blank input; blank
input (empty after stripping) is defaulted to 0 by the callie.py variant
and rejected by the macro_tracker_app.py variant. -/
theorem claim_C5_amended (s : List Char) (q : ℚ) :
    (pyFloat (pyStrip s) = some q → 0 ≤ q →
      Callie.parse_number s = some q ∧ TrackerApp.parse_number s = some q) ∧
    (pyFloat (pyStrip s) = some q → q < 0 →
      Callie.parse_number s = none ∧ TrackerApp.parse_number s = none) ∧
    ((pyStrip s).isEmpty = false → pyFloat (pyStrip s) = none →
      Callie.parse_number s = none ∧ TrackerApp.parse_number s = none) ∧
    ((pyStrip s).isEmpty = true →
      Callie.parse_number s = some 0 ∧ TrackerApp.parse_number s = none) := by
  refine ⟨?_, ?_, ?_, ?_⟩
  · intro hf hq
    have hne : (pyStrip s).isEmpty = false := by
      cases hemp : (pyStrip s).isEmpty
      · rfl
      · rw [List.isEmpty_iff.mp hemp] at hf
        rw [show pyFloat ([] : List Char) = none from rfl] at hf
        exact Option.noConfusion hf
    constructor
    · simp [Callie.parse_number, hne, hf, not_lt.mpr hq]
    · simp [TrackerApp.parse_number, hne, hf, not_lt.mpr hq]
  · intro hf hq
    have hne : (pyStrip s).isEmpty = false := by
      cases hemp : (pyStrip s).isEmpty
      · rfl
      · rw [List.isEmpty_iff.mp hemp] at hf
        rw [show pyFloat ([] : List Char) = none from rfl] at hf
        exact Option.noConfusion hf
    constructor
    · simp [Callie.parse_number, hne, hf, hq]
    · simp [TrackerApp.parse_number, hne, hf, hq]
  · intro hne hf
    constructor
    · simp [Callie.parse_number, hne, hf]
    · simp [TrackerApp.parse_number, hne, hf]
  · intro he
    constructor
    · simp [Callie.parse_number, he]
    · simp [TrackerApp.parse_number, he]

/-- C5 witness: the numeric input 7 is returned unchanged by both
validators. -/
theorem claim_C5_witness :
    pyFloat (pyStrip ("7".data)) = some 7 ∧ (0 : ℚ) ≤ 7 ∧
    Callie.parse_number ("7".data) = some 7 ∧ TrackerApp.parse_number ("7".data) = some 7 :=
  ⟨rfl, by norm_num, ((claim_C5_amended ("7".data) 7).1 rfl (by norm_num)).1,
    ((claim_C5_amended ("7".data) 7).1 rfl (by norm_num)).2⟩

/-- C2 counterexample: on the update path the input `-5` is accepted by
`parse_and_log_numeric_update` (which only checks that `float()`
succeeds) and the negative value -5 is put into `update_fields` and
handed to the persistence call, so the claim that every write path only
hands non-negative values to storage is false. -/
theorem claim_C2_counterexample :
    Callie.update_field_value ("-5".data) = some (-5) ∧ ((-5 : ℚ) < 0) :=
  ⟨rfl, by norm_num⟩

/-- C2 amended: the create path preserves the invariant — every value a
`parse_number` validation lets through is non-negative, in both
variants, hence so is every 5-tuple `create_path_values` hands to
`save_meal_to_airtable`, and the `None`-to-0 coercion there yields 0 —
but the update path accepts a negative number (input `-5` passes with
value -5). -/
theorem claim_C2_amended :
    (∀ s q, Callie.parse_number s = some q → 0 ≤ q) ∧
    (∀ s q, TrackerApp.parse_number s = some q → 0 ≤ q) ∧
    (∀ c1 c2 c3 c4 c5 v, Callie.create_path_values c1 c2 c3 c4 c5 = some v →
      0 ≤ v.1 ∧ 0 ≤ v.2.1 ∧ 0 ≤ v.2.2.1 ∧ 0 ≤ v.2.2.2.1 ∧ 0 ≤ v.2.2.2.2) ∧
    Callie.save_meal_coerce none = 0 ∧
    Callie.update_field_value ("-5".data) = some (-5) := by
  have key : ∀ s q, Callie.parse_number s = some q → 0 ≤ q := by
    intro s q h
    by_cases he : (pyStrip s).isEmpty = true
    · simp [Callie.parse_number, he] at h
      rw [← h]
    · simp only [Bool.not_eq_true] at he
      cases hf : pyFloat (pyStrip s) with
      | none => simp [Callie.parse_number, he, hf] at h
      | some q2 =>
        by_cases hlt : q2 < 0
        · simp [Callie.parse_number, he, hf, hlt] at h
        · simp [Callie.parse_number, he, hf, hlt] at h
          rw [← h]
          exact not_lt.mp hlt
  have key2 : ∀ s q, TrackerApp.parse_number s = some q → 0 ≤ q := by
    intro s q h
    by_cases he : (pyStrip s).isEmpty = true
    · simp [TrackerApp.parse_number, he] at h
    · simp only [Bool.not_eq_true] at he
      cases hf : pyFloat (pyStrip s) with
      | none => simp [TrackerApp.parse_number, he, hf] at h
      | some q2 =>
        by_cases hlt : q2 < 0
        · simp [TrackerApp.parse_number, he, hf, hlt] at h
        · simp [TrackerApp.parse_number, he, hf, hlt] at h
          rw [← h]
          exact not_lt.mp hlt
  refine ⟨key, key2, ?_, rfl, rfl⟩
  intro c1 c2 c3 c4 c5 v h
  rw [Callie.create_path_values] at h
  cases h1 : Callie.parse_number c1 with
  | none => rw [h1] at h; exact Option.noConfusion h
  | some a =>
  cases h2 : Callie.parse_number c2 with
  | none => rw [h1, h2] at h; exact Option.noConfusion h
  | some b =>
  cases h3 : Callie.parse_number c3 with
  | none => rw [h1, h2, h3] at h; exact Option.noConfusion h
  | some c =>
  cases h4 : Callie.parse_number c4 with
  | none => rw [h1, h2, h3, h4] at h; exact Option.noConfusion h
  | some d =>
  cases h5 : Callie.parse_number c5 with
  | none => rw [h1, h2, h3, h4, h5] at h; exact Option.noConfusion h
  | some e =>
  rw [h1, h2, h3, h4, h5] at h
  have hv := Option.some_inj.mp h
  rw [← hv]
  exact ⟨key c1 a h1, key c2 b h2, key c3 c h3, key c4 d h4, key c5 e h5⟩

/-- C2 witness: a concrete value accepted by the create-path validator
is non-negative. -/
theorem claim_C2_witness :
    Callie.parse_number ("5".data) = some 5 ∧ (0 : ℚ) ≤ 5 :=
  ⟨rfl, claim_C2_amended.1 ("5".data) 5 rfl⟩

/-- C6: aggregation is order-independent — summing the macro columns of
any permutation of the record list yields the same five totals. -/
theorem claim_C6 (l1 l2 : List MealFields) (h : l1.Perm l2) :
    dailyTotals l1 = dailyTotals l2 := by
  simp only [dailyTotals, Prod.mk.injEq]
  exact ⟨(h.map _).sum_eq, (h.map _).sum_eq, (h.map _).sum_eq,
    (h.map _).sum_eq, (h.map _).sum_eq⟩

/-- C6 witness: swapping two concrete records leaves the totals
unchanged. -/
theorem claim_C6_witness :
    dailyTotals [⟨some 1, none, some 2, none, some 3⟩, ⟨none, some 5, none, some 7, none⟩] =
      dailyTotals [⟨none, some 5, none, some 7, none⟩, ⟨some 1, none, some 2, none, some 3⟩] :=
  claim_C6 _ _ (List.Perm.swap _ _ _)

/-- C7: aggregation over the empty record set yields zero for each of
the five totals, and a record whose macro fields are all absent (each
read as `fields.get(key, 0)`, hence 0) contributes nothing. -/
theorem claim_C7 :
    dailyTotals [] = (0, 0, 0, 0, 0) ∧
    ∀ (r : MealFields) (rs : List MealFields),
      r.calories_kcal = none → r.protein_g = none → r.fat_g = none →
      r.cholesterol_mg = none → r.carbs_g = none →
      dailyTotals (r :: rs) = dailyTotals rs := by
  constructor
  · simp [dailyTotals]
  · intro r rs h1 h2 h3 h4 h5
    simp [dailyTotals, toRow, h1, h2, h3, h4, h5]

/-- C7 witness: one all-absent record totals the same as no records. -/
theorem claim_C7_witness :
    dailyTotals [⟨none, none, none, none, none⟩] = dailyTotals [] :=
  claim_C7.2 ⟨none, none, none, none, none⟩ [] rfl rfl rfl rfl rfl

/-- C8: for a positive goal the reported percentage is
`total / goal * 100` with no cap, and the remaining amount is
`goal - total`; on the concrete scenario with total 1800 and goal 1700
the percentage is 1800/17, which exceeds 100 and displays as 105.9, and
the remaining amount is -100, flagged as exceeded and displayed via its
absolute value 100. -/
theorem claim_C8 (total g : ℚ) (hg : 0 < g) :
    display_progress total g = Except.ok (some (total / g * 100)) ∧
    dashboard_remaining g total = g - total ∧
    display_progress 1800 1700 = Except.ok (some (1800 / 17)) ∧
    (100 : ℚ) < 1800 / 17 ∧
    fmt_one_dp (1800 / 17) = 1059 / 10 ∧
    dashboard_remaining 1700 1800 = -100 ∧
    dashboard_exceeded 1800 1700 = true ∧
    |dashboard_remaining 1700 1800| = 100 := by
  refine ⟨?_, rfl, ?_, by norm_num, ?_, by norm_num [dashboard_remaining], ?_, ?_⟩
  · rw [display_progress, if_pos hg, pyDiv, if_neg (ne_of_gt hg)]
    rfl
  · rw [display_progress, pyDiv]
    norm_num [Except.map]
  · rw [fmt_one_dp]
    have h : ⌊(1800 : ℚ) / 17 * 10 + 1 / 2⌋ = 1059 := by
      rw [Int.floor_eq_iff]
      constructor <;> norm_num
    rw [h]
    norm_num
  · norm_num [dashboard_exceeded]
  · norm_num [dashboard_remaining]

/-- C8 witness: the general formula evaluated at the scenario inputs. -/
theorem claim_C8_witness :
    (0 : ℚ) < 1700 ∧
    display_progress 1800 1700 = Except.ok (some (1800 / 1700 * 100)) :=
  ⟨by norm_num, (claim_C8 1800 1700 (by norm_num)).1⟩

/-- C9: neither progress function ever divides by zero — both return an
`ok` result on every input — and a zero goal takes the explicit branch:
`display_progress` reports the goal-not-set delta (encoded `none`) and
`plot_gauge` short-circuits its percentage to 0. -/
theorem claim_C9 (v g : ℚ) :
    (display_progress v g).isOk = true ∧ (plot_gauge_percent v g).isOk = true ∧
    display_progress v 0 = Except.ok none ∧ plot_gauge_percent v 0 = Except.ok 0 := by
  refine ⟨?_, ?_, ?_, ?_⟩
  · rw [display_progress]
    by_cases hg : 0 < g
    · rw [if_pos hg, pyDiv, if_neg (ne_of_gt hg)]
      rfl
    · rw [if_neg hg]
      rfl
  · rw [plot_gauge_percent]
    by_cases hg : g ≠ 0
    · simp [hg, pyDiv, Except.map]
      rfl
    · simp [hg]
      rfl
  · rw [display_progress]
    norm_num
  · rw [plot_gauge_percent]
    have hmin : min (0 : ℚ) 100 = 0 := by norm_num
    simp [pyDiv, hmin]
    rfl

/-- C1 witness: the amended statement evaluated at the concrete value
350. -/
theorem claim_C1_witness :
    (parse_openai_response ("Calories: ".data ++ decimalRepr 350)).calories = some 350 :=
  (claim_C1_amended 350).1

/-- C9 witness: the zero-goal branches evaluated at a concrete total. -/
theorem claim_C9_witness : display_progress 5 0 = Except.ok none :=
  (claim_C9 5 0).2.2.1
